import Mathlib

set_option linter.unusedVariables false
set_option linter.unreachableTactic false
set_option linter.unusedTactic false

/-! Shallow embedding of src/shared/hsm.py, the Coldcard HSM policy engine.
    JSON documents (ujson values) are modelled by an inductive value type;
    Python dicts by association lists with unique keys; Python exceptions
    (assert / ValueError) by Except String results.  External collaborator
    modules (utils, users, multisig, tcc, files) are modelled at their
    interface boundary by an Env record of abstract functions. -/

/-- JSON value, as produced by ujson.loads. A present null behaves like an
    absent key for the pop helpers (both map to Python None). -/
inductive JVal where
  | jnull
  | jbool (b : Bool)
  | jint (n : Int)
  | jstr (s : String)
  | jlist (l : List JVal)
  | jdict (d : List (String × JVal))

/-- A JSON object (Python dict): association list, keys unique. -/
abbrev Doc := List (String × JVal)

/-- Python truthiness of a JSON value. -/
def jTruthy : JVal → Bool
  | .jnull => false
  | .jbool b => b
  | .jint n => n != 0
  | .jstr s => !s.isEmpty
  | .jlist l => !l.isEmpty
  | .jdict d => !d.isEmpty

/-- Python dict.pop(key, None): the value if present, and the dict with the
    key removed. -/
def jpop (j : Doc) (k : String) : Option JVal × Doc :=
  match j.find? (fun kv => kv.1 == k) with
  | some kv => (some kv.2, j.filter (fun kv => !(kv.1 == k)))
  | none => (none, j)

/-- hsm.py MAX_SATS: number of sats in the world, 21E6 * 1E8. -/
def MAX_SATS : Int := 2100000000000000

/-- pincodes.AE_LONG_SECRET_LEN, from the external secure-element module
    (value used only as the upper length bound 16..max-2 for set_sl). -/
def AE_LONG_SECRET_LEN : Nat := 416

/-- hsm.py LOCAL_PIN_LENGTH: number of digits in the local confirmation pin. -/
def LOCAL_PIN_LENGTH : Nat := 6

/-- hsm.py pop_int: returns an int or None, range checked.  Python bools are
    ints (True == 1); a present JSON null is Python None. -/
def pop_int (j : Doc) (k : String) (mn mx : Int) : Except String (Option Int × Doc) :=
  match jpop j k with
  | (none, j') => .ok (none, j')
  | (some .jnull, j') => .ok (none, j')
  | (some (.jint n), j') =>
      if mn ≤ n ∧ n ≤ mx then .ok (some n, j')
      else .error (k ++ ": must be in range")
  | (some (.jbool b), j') =>
      let n : Int := if b then 1 else 0
      if mn ≤ n ∧ n ≤ mx then .ok (some n, j')
      else .error (k ++ ": must be in range")
  | (some _, j') => .error (k ++ ": must be integer")

/-- hsm.py pop_bool: bool(j.pop(fld_name, default)), default False. -/
def pop_bool (j : Doc) (k : String) : Bool × Doc :=
  match jpop j k with
  | (none, j') => (false, j')
  | (some v, j') => (jTruthy v, j')

/-- hsm.py pop_string: a string or None, length checked. -/
def pop_string (j : Doc) (k : String) (mn mx : Nat) : Except String (Option String × Doc) :=
  match jpop j k with
  | (none, j') => .ok (none, j')
  | (some .jnull, j') => .ok (none, j')
  | (some (.jstr s), j') =>
      if mn ≤ s.length ∧ s.length ≤ mx then .ok (some s, j')
      else .error (k ++ ": length out of range")
  | (some _, j') => .error (k ++ ": must be string")

/-- Environment of external collaborators (spec section 6), at their
    interface boundary:
    utils.cleanup_deriv_path (normalize a derivation path or fail),
    utils.problem_file_line (render file and line of an exception),
    users.Users.valid_username / Users.auth_okay (credential collaborator),
    multisig.MultisigWallet.get_all (known wallet names),
    tcc whitelist syntax checks (base58/bech32 decode succeeds), and
    files.CardSlot availability (durable audit storage present). -/
structure Env where
  time : Nat
  cardAvailable : Bool
  authOkay : String → String → Nat → List Nat → Option String
  problemFileLine : String → String
  cleanupDeriv : String → Option String
  validWhitelistVal : String → Bool
  validUsername : String → Bool
  msWalletNames : List String

/-- Map one element while cleaning up a popped list (the list comprehension
    inside hsm.py pop_list); first failure aborts. -/
def cleanupList (c : JVal → Except String String) : List JVal → Except String (List String)
  | [] => .ok []
  | v :: rest =>
    match c v with
    | .error e => .error e
    | .ok x =>
      match cleanupList c rest with
      | .error e => .error e
      | .ok xs => .ok (x :: xs)

/-- hsm.py pop_list with a cleanup function producing strings: None or a
    falsy value gives [], a truthy non-list raises. -/
def pop_list_str (j : Doc) (k : String) (c : JVal → Except String String) :
    Except String (List String × Doc) :=
  match jpop j k with
  | (none, j') => .ok ([], j')
  | (some v, j') =>
    if jTruthy v then
      match v with
      | .jlist l =>
        match cleanupList c l with
        | .error e => .error e
        | .ok xs => .ok (xs, j')
      | _ => .error ("need a list for: " ++ k)
    else .ok ([], j')

/-- hsm.py pop_list with no cleanup function (used for the rules list):
    items are returned raw. -/
def pop_list_raw (j : Doc) (k : String) : Except String (List JVal × Doc) :=
  match jpop j k with
  | (none, j') => .ok ([], j')
  | (some v, j') =>
    if jTruthy v then
      match v with
      | .jlist l => .ok (l, j')
      | _ => .error ("need a list for: " ++ k)
    else .ok ([], j')

/-- Python str.lower() for the ASCII policy keywords (structurally
    recursive, unlike String.toLower, so that proofs can evaluate it). -/
def strLower (s : String) : String := String.mk (s.data.map Char.toLower)

/-- The cu function inside hsm.py pop_deriv_list: accept 'any' (lowered),
    optionally an extra sentinel value, else a cleaned-up derivation path.
    Non-strings raise (s.lower() on a non-string). -/
def cuDeriv (env : Env) (k : String) (extra : Option String) : JVal → Except String String
  | .jstr s =>
    if strLower s == "any" then .ok (strLower s)
    else
      match extra with
      | some e =>
        if strLower s == e then .ok (strLower s)
        else
          match env.cleanupDeriv s with
          | some t => .ok t
          | none => .error (k ++ ": invalid path (" ++ s ++ ")")
      | none =>
        match env.cleanupDeriv s with
        | some t => .ok t
        | none => .error (k ++ ": invalid path (" ++ s ++ ")")
  | _ => .error (k ++ ": invalid path (not a string)")

/-- hsm.py pop_deriv_list. -/
def pop_deriv_list (env : Env) (j : Doc) (k : String) (extra : Option String) :
    Except String (List String × Doc) :=
  pop_list_str j k (cuDeriv env k extra)

/-- hsm.py check_user (inner function of ApprovalRule.__init__): usernames
    must already be known to the Users module. -/
def checkUser (env : Env) : JVal → Except String String
  | .jstr s => if env.validUsername s then .ok s else .error ("Unknown user: " ++ s)
  | _ => .error "Unknown user: (not a string)"

/-- hsm.py cleanup_whitelist_value: value must be checksumed-base58 or
    bech32; returned unchanged on success. -/
def cleanupWhitelistValue (env : Env) : JVal → Except String String
  | .jstr s => if env.validWhitelistVal s then .ok s else .error ("bad whitelist value: " ++ s)
  | _ => .error "bad whitelist value: (not a string)"

/-- hsm.py assert_empty_dict. -/
def assert_empty_dict (j : Doc) : Except String Unit :=
  if j.isEmpty then .ok () else .error "Unknown item"

/-- One approval rule (hsm.py ApprovalRule). index is idx+1, fixed at parse
    time; spent_so_far is the mutable velocity counter. -/
structure Rule where
  index : Nat
  per_period : Option Int
  max_amount : Option Int
  users : List String
  whitelist : List String
  min_users : Option Int
  local_conf : Bool
  wallet : Option String
  spent_so_far : Int
deriving Repr, DecidableEq

/-- hsm.py ApprovalRule.__init__ : destructive parse of one rule dict. -/
def approvalRuleInit (env : Env) (j : Doc) (idx : Nat) : Except String Rule :=
  match pop_int j "per_period" 0 MAX_SATS with
  | .error e => .error e
  | .ok (per_period, j) =>
  match pop_int j "max_amount" 0 MAX_SATS with
  | .error e => .error e
  | .ok (max_amount, j) =>
  match pop_list_str j "users" (checkUser env) with
  | .error e => .error e
  | .ok (users, j) =>
  match pop_list_str j "whitelist" (cleanupWhitelistValue env) with
  | .error e => .error e
  | .ok (whitelist, j) =>
  match pop_int j "min_users" 1 users.length with
  | .error e => .error e
  | .ok (min_users0, j) =>
  match pop_bool j "local_conf" with
  | (local_conf, j) =>
  match pop_string j "wallet" 1 20 with
  | .error e => .error e
  | .ok (wallet, j) =>
  if hdup : users.Nodup then
    match hmu : min_users0 with
    | none =>
      let min_users : Option Int := if users.isEmpty then none else some users.length
      match wallet with
      | some w =>
        if !w.isEmpty && w != "1" then
          if env.msWalletNames.contains w then
            match assert_empty_dict j with
            | .error e => .error e
            | .ok _ => .ok ⟨idx+1, per_period, max_amount, users, whitelist,
                            min_users, local_conf, some w, 0⟩
          else .error ("unknown MS wallet: " ++ w)
        else
          match assert_empty_dict j with
          | .error e => .error e
          | .ok _ => .ok ⟨idx+1, per_period, max_amount, users, whitelist,
                          min_users, local_conf, some w, 0⟩
      | none =>
        match assert_empty_dict j with
        | .error e => .error e
        | .ok _ => .ok ⟨idx+1, per_period, max_amount, users, whitelist,
                        min_users, local_conf, none, 0⟩
    | some m =>
      if 1 ≤ m ∧ m ≤ users.length then
        match wallet with
        | some w =>
          if !w.isEmpty && w != "1" then
            if env.msWalletNames.contains w then
              match assert_empty_dict j with
              | .error e => .error e
              | .ok _ => .ok ⟨idx+1, per_period, max_amount, users, whitelist,
                              some m, local_conf, some w, 0⟩
            else .error ("unknown MS wallet: " ++ w)
          else
            match assert_empty_dict j with
            | .error e => .error e
            | .ok _ => .ok ⟨idx+1, per_period, max_amount, users, whitelist,
                            some m, local_conf, some w, 0⟩
        | none =>
          match assert_empty_dict j with
          | .error e => .error e
          | .ok _ => .ok ⟨idx+1, per_period, max_amount, users, whitelist,
                          some m, local_conf, none, 0⟩
      else .error "range"
  else .error "dup users"

/-- hsm.py ApprovalRule.has_velocity. -/
def Rule.has_velocity (r : Rule) : Bool :=
  r.per_period.isSome

/-- hsm.py ApprovalRule.matches_transaction: does this rule apply?  Each
    failed check raises (here: Except.error) with its message.  Python set
    iteration order is unspecified, so the whitelist-diff message joins the
    offending destinations in first-seen order. -/
def matches_transaction (r : Rule) (activeMultisig : Option String) (users : List String)
    (total_out : Int) (dests : List String) (local_oked : Bool) : Except String Unit := do
  match r.wallet with
  | some w =>
    if !w.isEmpty then
      match activeMultisig with
      | some name => if w = name then pure () else throw "wrong wallet"
      | none => if w = "1" then pure () else throw "not multisig"
    else pure ()
  | none => pure ()
  match r.max_amount with
  | some m => if total_out ≤ m then pure () else throw "too much out"
  | none => pure ()
  if !r.whitelist.isEmpty then
    let diff := (dests.filter (fun d => !(r.whitelist.contains d))).dedup
    if diff.isEmpty then pure ()
    else throw ("non-whitelisted dest: " ++ String.intercalate ", " diff)
  else pure ()
  if r.local_conf then
    if local_oked then pure () else throw "local operator didn't confirm"
  else pure ()
  if !r.users.isEmpty then
    let given := (r.users.filter (fun u => users.contains u)).dedup
    if given.isEmpty then throw "need user(s) confirmation"
    else
      match r.min_users with
      | some m =>
        if (given.length : Int) ≥ m then pure ()
        else throw "need more users to confirm"
      | none => throw "unorderable types: int() >= NoneType()"
  else pure ()
  match r.per_period with
  | some pp =>
    if r.spent_so_far + total_out ≤ pp then pure ()
    else throw "would exceed period spending"
  | none => pure ()

/-- Render '%06d' applied to n < 10^6: exactly six decimal digits,
    zero padded (most significant first). -/
def format6 (n : Nat) : String :=
  String.mk ((List.range 6).reverse.map (fun i => Char.ofNat (48 + n / 10 ^ i % 10)))

/-- The HSMPolicy object (hsm.py HSMPolicy).  Python sets the config fields
    (must_log .. rules) only in load(); here they carry their getattr(_, None)
    defaults until load overwrites them.  period_spends is initialised by
    __init__ and never used elsewhere in the source; it is omitted. -/
structure HSMPolicy where
  refusals : Nat
  approvals : Nat
  sl_reads : Nat
  pending_auth : List (String × String × Nat)
  period_started : Nat
  local_code_pending : String
  next_local_code : String
  last_refusal : Option String
  must_log : Bool
  warnings_ok : Bool
  msg_paths : List String
  share_xpubs : List String
  share_addrs : List String
  notes : JVal
  period : Option Int
  allow_sl : Option Int
  set_sl : Option String
  rules : List Rule

/-- hsm.py HSMPolicy.__init__ ; rnd is the tcc.random.uniform(1000000) draw
    (the RNG is external, so each draw is passed in explicitly). -/
def hsmPolicyInit (rnd : Nat) : HSMPolicy :=
  { refusals := 0, approvals := 0, sl_reads := 0, pending_auth := []
    period_started := 0
    local_code_pending := ""
    next_local_code := format6 (rnd % 1000000)
    last_refusal := none
    must_log := false, warnings_ok := false
    msg_paths := [], share_xpubs := [], share_addrs := []
    notes := .jnull, period := none, allow_sl := none, set_sl := none
    rules := [] }

/-- Parse the rules array ([ApprovalRule(i, idx) for idx, i in
    enumerate(lst)]); a non-dict element raises (AttributeError on pop). -/
def parseRules (env : Env) : List JVal → Nat → Except String (List Rule)
  | [], _ => .ok []
  | v :: rest, idx =>
    match v with
    | .jdict d =>
      match approvalRuleInit env d idx with
      | .error e => .error e
      | .ok r =>
        match parseRules env rest (idx+1) with
        | .error e => .error e
        | .ok rs => .ok (r :: rs)
    | _ => .error "rule is not an object"

/-- Python truthiness of an optional int (used for period / allow_sl). -/
def optIntTruthy : Option Int → Bool
  | none => false
  | some n => n != 0

/-- Python truthiness of an optional string (used for set_sl / wallet). -/
def optStrTruthy : Option String → Bool
  | none => false
  | some s => !s.isEmpty

/-- hsm.py HSMPolicy.load : destructive decode of the policy document. -/
def HSMPolicy.load (env : Env) (s : HSMPolicy) (j : Doc) : Except String HSMPolicy :=
  match pop_bool j "must_log" with
  | (must_log, j) =>
  match pop_bool j "warnings_ok" with
  | (warnings_ok, j) =>
  match pop_deriv_list env j "msg_paths" none with
  | .error e => .error e
  | .ok (msg_paths, j) =>
  match pop_deriv_list env j "share_xpubs" none with
  | .error e => .error e
  | .ok (share_xpubs, j) =>
  match pop_deriv_list env j "share_addrs" (some "p2sh") with
  | .error e => .error e
  | .ok (share_addrs, j) =>
  match jpop j "notes" with
  | (notesV, j) =>
  let notes := notesV.getD .jnull
  match pop_int j "period" 1 (3*24*60) with
  | .error e => .error e
  | .ok (period, j) =>
  match pop_int j "allow_sl" 1 10 with
  | .error e => .error e
  | .ok (allow_sl, j) =>
  match pop_string j "set_sl" 16 (AE_LONG_SECRET_LEN - 2) with
  | .error e => .error e
  | .ok (set_sl, j) =>
  if optStrTruthy set_sl && !(optIntTruthy allow_sl) then
    .error "need allow_sl>=1"
  else
  match pop_list_raw j "rules" with
  | .error e => .error e
  | .ok (rlist, j) =>
  match parseRules env rlist 0 with
  | .error e => .error e
  | .ok rules =>
  if !(optIntTruthy period) && rules.any (fun r => r.has_velocity) then
    .error "Needs period to be specified"
  else
  match assert_empty_dict j with
  | .error e => .error e
  | .ok _ =>
    .ok { s with must_log := must_log, warnings_ok := warnings_ok,
                 msg_paths := msg_paths, share_xpubs := share_xpubs,
                 share_addrs := share_addrs, notes := notes,
                 period := period, allow_sl := allow_sl, set_sl := set_sl,
                 rules := rules }

/-- Encode an optional int back to JSON (None becomes null on ujson.dump). -/
def optIntJ : Option Int → JVal
  | none => .jnull
  | some n => .jint n

/-- Encode an optional string back to JSON. -/
def optStrJ : Option String → JVal
  | none => .jnull
  | some s => .jstr s

/-- hsm.py ApprovalRule.to_json : the cleaned-up rule dict we save. -/
def Rule.to_json (r : Rule) : JVal :=
  .jdict [("per_period", optIntJ r.per_period),
          ("max_amount", optIntJ r.max_amount),
          ("users", .jlist (r.users.map .jstr)),
          ("min_users", optIntJ r.min_users),
          ("local_conf", .jbool r.local_conf),
          ("whitelist", .jlist (r.whitelist.map .jstr)),
          ("wallet", optStrJ r.wallet)]

/-- hsm.py HSMPolicy.save : the JSON document for next time (set_sl is
    never written). -/
def HSMPolicy.save (s : HSMPolicy) : Doc :=
  [("must_log", .jbool s.must_log),
   ("msg_paths", .jlist (s.msg_paths.map .jstr)),
   ("share_xpubs", .jlist (s.share_xpubs.map .jstr)),
   ("share_addrs", .jlist (s.share_addrs.map .jstr)),
   ("notes", s.notes),
   ("period", optIntJ s.period),
   ("allow_sl", optIntJ s.allow_sl),
   ("warnings_ok", .jbool s.warnings_ok),
   ("rules", .jlist (s.rules.map Rule.to_json))]

/-- hsm.py HSMPolicy.reset_period : new period has begun. -/
def HSMPolicy.reset_period (s : HSMPolicy) : HSMPolicy :=
  { s with rules := s.rules.map (fun r => { r with spent_so_far := 0 }),
           period_started := 0 }

/-- hsm.py HSMPolicy.record_spend : record a spend against the rule at
    0-based position k; start the window at now (utime.time() or 1) if it
    has not started yet. -/
def HSMPolicy.record_spend (s : HSMPolicy) (k : Nat) (amt : Int) (now : Nat) : HSMPolicy :=
  let rules :=
    match s.rules.get? k with
    | some r => s.rules.set k { r with spent_so_far := r.spent_so_far + amt }
    | none => s.rules
  { s with rules := rules,
           period_started :=
             if s.period_started = 0 then (if now = 0 then 1 else now)
             else s.period_started }

/-- hsm.py HSMPolicy.get_time_left : None when the feature is unused, -1
    when nothing has been spent yet, else seconds left; side effect: reset
    the period if it has ended. -/
def HSMPolicy.get_time_left (s : HSMPolicy) (now : Nat) : Option Int × HSMPolicy :=
  match s.period with
  | none => (none, s)
  | some p =>
    if s.period_started = 0 then (some (-1), s)
    else
      let so_far : Int := (now : Int) - (s.period_started : Int)
      let left : Int := p * 60 - so_far
      if left ≤ 0 then (some (-1), s.reset_period)
      else (some left, s)

/-- hsm.py MAX_USERNAME_LEN (public_constants) and MAX_NUMBER_USERS (users),
    external constants. -/
def MAX_USERNAME_LEN : Nat := 16

def MAX_NUMBER_USERS : Nat := 30

/-- Python dict insert: replace in place if the key exists, else append. -/
def setAssoc (l : List (String × String × Nat)) (k : String) (v : String × Nat) :
    List (String × String × Nat) :=
  if l.any (fun kv => kv.1 == k) then
    l.map (fun kv => if kv.1 == k then (k, v) else kv)
  else l ++ [(k, v)]

/-- hsm.py HSMPolicy.usb_auth_user : capture a proposed credential. -/
def HSMPolicy.usb_auth_user (s : HSMPolicy) (username token : String) (totp_time : Nat) :
    Except String HSMPolicy :=
  if !(1 < username.length ∧ username.length ≤ MAX_USERNAME_LEN) then .error "badlen"
  else if !(s.pending_auth.length + 1 ≤ MAX_NUMBER_USERS) then .error "toomany"
  else .ok { s with pending_auth := setAssoc s.pending_auth username (token, totp_time) }

/-- hsm.py HSMPolicy.local_pin_entered : store the entered digits. -/
def HSMPolicy.local_pin_entered (s : HSMPolicy) (code : String) : HSMPolicy :=
  { s with local_code_pending := code }

/-- hsm.py HSMPolicy.consume_local_code : compare pending to expected,
    clear pending, unconditionally draw the next expected code. -/
def HSMPolicy.consume_local_code (s : HSMPolicy) (rnd : Nat) : Bool × HSMPolicy :=
  let expect := s.next_local_code
  let got := s.local_code_pending
  (got == expect,
   { s with local_code_pending := "",
            next_local_code := format6 (rnd % 1000000) })

/-- hsm.py AuditLogger.refuse : count and remember the refusal. -/
def logRefuse (msg : String) (s : HSMPolicy) : HSMPolicy :=
  { s with refusals := s.refusals + 1, last_refusal := some msg }

/-- hsm.py AuditLogger.approve : count and clear the last refusal. -/
def logApprove (msg : String) (s : HSMPolicy) : HSMPolicy :=
  { s with approvals := s.approvals + 1, last_refusal := none }

/-- Observable steps of one approve_transaction decision, in execution
    order (used to state which checks ran and in which order). -/
inductive HEvent where
  | timeCheck
  | auditOpen (unsaved : Bool)
  | consumeCode (ok : Bool)
  | credentialCheck (u : String)
  | ruleEval (pos : Nat) (ok : Bool)
  | refused (msg : String)
  | approved (msg : String)
deriving Repr, DecidableEq

/-- Credential verification loop of approve_transaction: every captured
    credential must verify; the first bad one refuses the whole decision. -/
def verifyUsers (env : Env) (sha : List Nat) :
    List (String × String × Nat) → Except (String × String) (List String) × List HEvent
  | [] => (.ok [], [])
  | (u, token, counter) :: rest =>
    match env.authOkay u token counter sha with
    | some problem => (.error (u, problem), [HEvent.credentialCheck u])
    | none =>
      let rec0 := verifyUsers env sha rest
      (match rec0.1 with
       | .ok us => .ok (u :: us)
       | .error e => .error e,
       HEvent.credentialCheck u :: rec0.2)

/-- Rule selection loop of approve_transaction: first rule whose checks all
    pass wins; each failure appends a tagged reason.  start is the 0-based
    position of the first rule in the slice. -/
def evaluateRules (pfl : String → String) (rules : List Rule) (start : Nat)
    (activeMs : Option String) (users : List String) (total_out : Int)
    (dests : List String) (local_ok : Bool) :
    Option (Nat × Rule) × List String × List HEvent :=
  match rules with
  | [] => (none, [], [])
  | r :: rest =>
    match matches_transaction r activeMs users total_out dests local_ok with
    | .ok _ => (some (start, r), [], [HEvent.ruleEval start true])
    | .error e =>
      let reason := "rule #" ++ toString (r.index + 1) ++ ": " ++ pfl e ++ ": " ++ e
      let rec0 := evaluateRules pfl rest (start+1) activeMs users total_out dests local_ok
      (rec0.1, reason :: rec0.2.1, HEvent.ruleEval start false :: rec0.2.2)

/-- One transaction output as the decision sees it: satoshi value, change
    flag, and the rendered destination address. -/
structure TxOut where
  nValue : Int
  is_change : Bool
  address : String

/-- Decision input parsed from the PSBT by the external transaction layer:
    warning strings, name of the active multisig wallet if any, outputs. -/
structure Psbt where
  warnings : List String
  active_multisig : Option String
  outputs : List TxOut

/-- The refusal taken by the except-BaseException handler at the bottom of
    approve_transaction. -/
def exceptRefuse (env : Env) (msg : String) (s : HSMPolicy) (evs : List HEvent) :
    Except String Char × HSMPolicy × List HEvent :=
  let err := "Rejected: " ++ env.problemFileLine msg ++ ": " ++ msg
  (.ok 'x', logRefuse err s, evs ++ [HEvent.refused err])

/-- hsm.py HSMPolicy.approve_transaction.  Returns the Python result ('y'
    or 'x') in Except.ok; a propagated exception is Except.error.  rnd is
    the RNG draw consumed by consume_local_code; the trace records the
    checks in the order the source runs them.  The unused msg computation
    at lines 708-711 of the source has no effect and is omitted. -/
def HSMPolicy.approve_transaction (s : HSMPolicy) (env : Env) (rnd : Nat)
    (psbt : Psbt) (psbt_sha : List Nat) (story : String) :
    Except String Char × HSMPolicy × List HEvent :=
  if psbt_sha.isEmpty || psbt_sha.length ≠ 32 then
    (.error "assert: psbt_sha and len(psbt_sha) == 32", s, [])
  else
    let s1 := (s.get_time_left env.time).2
    let unsaved := !env.cardAvailable
    let evs0 := [HEvent.timeCheck, HEvent.auditOpen unsaved]
    if s1.must_log && unsaved then
      let msg := "Could not log details, and must_log is set"
      (.ok 'x', logRefuse msg s1, evs0 ++ [HEvent.refused msg])
    else
      let auth := s1.pending_auth
      let s2 := { s1 with pending_auth := [] }
      let cc := s2.consume_local_code rnd
      let local_ok := cc.1
      let s3 := cc.2
      let evs1 := evs0 ++ [HEvent.consumeCode local_ok]
      if s3.rules.isEmpty then
        exceptRefuse env "no txn signing allowed" s3 evs1
      else if !psbt.warnings.isEmpty && !s3.warnings_ok then
        exceptRefuse env ("has " ++ toString psbt.warnings.length ++ " warning(s)") s3 evs1
      else
        let vr := verifyUsers env psbt_sha auth
        let evsC := vr.2
        match vr.1 with
        | .error (u, problem) =>
          let msg := "User '" ++ u ++ "' gave wrong auth value: " ++ problem
          (.ok 'x', logRefuse msg s3, evs1 ++ evsC ++ [HEvent.refused msg])
        | .ok users =>
          let nonChange := psbt.outputs.filter (fun o => !o.is_change)
          let total_out : Int := (nonChange.map (fun o => o.nValue)).sum
          let dests := nonChange.map (fun o => o.address)
          let er := evaluateRules env.problemFileLine s3.rules 0 psbt.active_multisig
                      users total_out dests local_ok
          let evsR := er.2.2
          match er.1 with
          | none =>
            let err := "Rejected: " ++ String.intercalate ", " er.2.1
            (.ok 'x', logRefuse err s3, evs1 ++ evsC ++ evsR ++ [HEvent.refused err])
          | some (k, rule) =>
            let msg := "Acceptable by rule #" ++ toString (rule.index + 1)
            let s4 := logApprove msg s3
            let s5 := if rule.per_period.isSome then s4.record_spend k total_out env.time else s4
            (.ok 'y', s5, evs1 ++ evsC ++ evsR ++ [HEvent.approved msg])

/-! Helper lemmas and concrete fixtures. -/

/-- Six decimal digits, never empty: the invariant of next_local_code. -/
def is6digits (s : String) : Bool :=
  s.length == 6 && s.toList.all (fun c => c.isDigit)

lemma digitChar_isDigit (d : Nat) (hd : d < 10) : (Char.ofNat (48 + d)).isDigit = true := by
  interval_cases d <;> decide

lemma format6_is6digits (n : Nat) : is6digits (format6 n) = true := by
  have h10 : ∀ i : Nat, n / 10 ^ i % 10 < 10 := fun i => Nat.mod_lt _ (by norm_num)
  show (_ && _) = true
  rw [Bool.and_eq_true]
  constructor
  · rfl
  · rw [show (format6 n).toList =
        [Char.ofNat (48 + n / 10 ^ 5 % 10), Char.ofNat (48 + n / 10 ^ 4 % 10),
         Char.ofNat (48 + n / 10 ^ 3 % 10), Char.ofNat (48 + n / 10 ^ 2 % 10),
         Char.ofNat (48 + n / 10 ^ 1 % 10), Char.ofNat (48 + n / 10 ^ 0 % 10)] from rfl]
    simp only [List.all_cons, List.all_nil, Bool.and_eq_true, Bool.and_true]
    exact ⟨digitChar_isDigit _ (h10 5), digitChar_isDigit _ (h10 4), digitChar_isDigit _ (h10 3),
      digitChar_isDigit _ (h10 2), digitChar_isDigit _ (h10 1), digitChar_isDigit _ (h10 0)⟩

lemma consume_next_is6 (s : HSMPolicy) (rnd : Nat) :
    is6digits ((s.consume_local_code rnd).2.next_local_code) = true :=
  format6_is6digits _

lemma init_next_is6 (rnd : Nat) : is6digits (hsmPolicyInit rnd).next_local_code = true :=
  format6_is6digits _

/-- A concrete environment used by the concrete evaluations below. -/
def envW : Env :=
  { time := 1000, cardAvailable := true,
    authOkay := fun _ _ _ _ => none,
    problemFileLine := fun _ => "hsm.py",
    cleanupDeriv := fun _ => none,
    validWhitelistVal := fun _ => false,
    validUsername := fun _ => false,
    msWalletNames := [] }

/-- C8: a rule with no constraints at all parses successfully and its
    matches_transaction succeeds on every transaction summary. -/
theorem c8_allow_all_rule (env : Env) (idx : Nat) :
    ∃ r, approvalRuleInit env [] idx = .ok r ∧
      ∀ (activeMs : Option String) (users : List String) (total_out : Int)
        (dests : List String) (local_oked : Bool),
        matches_transaction r activeMs users total_out dests local_oked = .ok () := by
  refine ⟨⟨idx+1, none, none, [], [], none, false, none, 0⟩, ?_, ?_⟩
  · rfl
  · intro ams users tot dests lok
    rfl

/-- C9: the first rule (0-based position 0, 1-based number 1) records its
    failure reason tagged "rule #2": the reason string uses index+1 on top of
    the already 1-based index field. -/
theorem c9_reason_tag_off_by_one :
    ∃ r, approvalRuleInit envW [("max_amount", JVal.jint 5)] 0 = .ok r
      ∧ r.index = 1
      ∧ (evaluateRules (fun _ => "hsm.py") [r] 0 none [] 10 [] false).2.1
          = ["rule #2: hsm.py: too much out"] := by
  refine ⟨⟨1, none, some 5, [], [], none, false, none, 0⟩, ?_, rfl, ?_⟩ <;> rfl

/-- C5 counterexample: with the RNG drawing 123456 again, consuming does not
    change the expected code, and the previously expected code still
    validates on a later consume. -/
theorem c5_counterexample :
    (((hsmPolicyInit 123456).local_pin_entered "123456").consume_local_code 123456).2.next_local_code
      = (hsmPolicyInit 123456).next_local_code
    ∧ ((((((hsmPolicyInit 123456).local_pin_entered "123456").consume_local_code
          123456).2).local_pin_entered
            (hsmPolicyInit 123456).next_local_code).consume_local_code 0).1 = true := by
  exact ⟨rfl, by decide⟩

/-- C5 amended: enter("123456") then consume() returns true iff "123456" was
    the expected code; consume unconditionally draws format6(rnd mod 10^6) as
    the new expected code, and whenever that draw differs from the previous
    expected code, the previous code no longer validates on a later consume. -/
theorem c5_local_code_amended (s : HSMPolicy) (rnd rnd2 : Nat)
    (h : format6 (rnd % 1000000) ≠ s.next_local_code) :
    (((s.local_pin_entered "123456").consume_local_code rnd).1 = true
        ↔ s.next_local_code = "123456")
    ∧ (s.consume_local_code rnd).2.next_local_code = format6 (rnd % 1000000)
    ∧ ((((s.consume_local_code rnd).2).local_pin_entered
          s.next_local_code).consume_local_code rnd2).1 = false := by
  refine ⟨?_, rfl, ?_⟩
  · simp only [HSMPolicy.consume_local_code, HSMPolicy.local_pin_entered, beq_iff_eq]
    exact ⟨fun hh => hh.symm, fun hh => hh.symm⟩
  · show (s.next_local_code == format6 (rnd % 1000000)) = false
    rw [beq_eq_false_iff_ne]
    exact fun hh => h hh.symm

/-- C5 amended, witnessed at a concrete state: the initial policy with code
    "000000", a fresh draw of 1 (new code "000001"). -/
theorem c5_local_code_amended_witness :
    format6 (1 % 1000000) ≠ (hsmPolicyInit 0).next_local_code
    ∧ (((((hsmPolicyInit 0).local_pin_entered "123456").consume_local_code 1).1 = true
          ↔ (hsmPolicyInit 0).next_local_code = "123456")
        ∧ ((hsmPolicyInit 0).consume_local_code 1).2.next_local_code = format6 (1 % 1000000)
        ∧ (((((hsmPolicyInit 0).consume_local_code 1).2).local_pin_entered
              (hsmPolicyInit 0).next_local_code).consume_local_code 5).1 = false) :=
  ⟨by decide, c5_local_code_amended (hsmPolicyInit 0) 1 5 (by decide)⟩

/-! Preservation of next_local_code by each operation (used for C10). -/


lemma get_time_left_next (s : HSMPolicy) (now : Nat) :
    ((s.get_time_left now).2).next_local_code = s.next_local_code := by
  unfold HSMPolicy.get_time_left
  repeat' split
  all_goals simp only [HSMPolicy.reset_period]
  all_goals (first | rfl | (split <;> rfl))

lemma load_next_local_code (env : Env) (s : HSMPolicy) (j : Doc) (s' : HSMPolicy)
    (h : HSMPolicy.load env s j = .ok s') : s'.next_local_code = s.next_local_code := by
  unfold HSMPolicy.load at h
  repeat' (first
    | (split at h)
    | (replace h := h.symm; split at h))
  all_goals (first | (cases h; rfl) | (cases h.symm; rfl) | cases h | cases h.symm)

lemma usb_auth_user_next (s : HSMPolicy) (u t : String) (c : Nat) (s' : HSMPolicy)
    (h : s.usb_auth_user u t c = .ok s') : s'.next_local_code = s.next_local_code := by
  unfold HSMPolicy.usb_auth_user at h
  repeat' split at h
  all_goals (first | (cases h; rfl) | cases h)

lemma approve_transaction_next_is6 (s : HSMPolicy) (env : Env) (rnd : Nat) (psbt : Psbt)
    (sha : List Nat) (story : String) (h6 : is6digits s.next_local_code = true) :
    is6digits (((s.approve_transaction env rnd psbt sha story).2.1).next_local_code) = true := by
  have hg6 : is6digits ((s.get_time_left env.time).2.next_local_code) = true := by
    rw [get_time_left_next]; exact h6
  simp only [HSMPolicy.approve_transaction, exceptRefuse, logRefuse, logApprove]
  repeat' split
  all_goals (first
    | exact h6
    | exact hg6
    | exact format6_is6digits _)

/-- C10: next_local_code is always a non-empty string of exactly six decimal
    digits: established by HSMPolicy construction, preserved by load,
    reset_period, record_spend, get_time_left, usb_auth_user,
    local_pin_entered, consume_local_code and approve_transaction; hence a
    consume_local_code with an empty pending code always returns false. -/
theorem c10_next_local_code_invariant :
    (∀ rnd, is6digits (hsmPolicyInit rnd).next_local_code = true)
    ∧ (∀ (s : HSMPolicy) rnd, is6digits ((s.consume_local_code rnd).2.next_local_code) = true)
    ∧ (∀ (s : HSMPolicy) code, (s.local_pin_entered code).next_local_code = s.next_local_code)
    ∧ (∀ env (s : HSMPolicy) j s', HSMPolicy.load env s j = .ok s' →
        s'.next_local_code = s.next_local_code)
    ∧ (∀ s : HSMPolicy, s.reset_period.next_local_code = s.next_local_code)
    ∧ (∀ (s : HSMPolicy) k amt now, (s.record_spend k amt now).next_local_code = s.next_local_code)
    ∧ (∀ (s : HSMPolicy) now, ((s.get_time_left now).2).next_local_code = s.next_local_code)
    ∧ (∀ (s : HSMPolicy) u t c s', s.usb_auth_user u t c = .ok s' →
        s'.next_local_code = s.next_local_code)
    ∧ (∀ (s : HSMPolicy) env rnd psbt sha story, is6digits s.next_local_code = true →
        is6digits (((s.approve_transaction env rnd psbt sha story).2.1).next_local_code) = true)
    ∧ (∀ (s : HSMPolicy) rnd, is6digits s.next_local_code = true →
        s.local_code_pending = "" → (s.consume_local_code rnd).1 = false) := by
  refine ⟨init_next_is6, consume_next_is6, fun _ _ => rfl, load_next_local_code, fun _ => rfl,
    fun _ _ _ _ => rfl, get_time_left_next, usb_auth_user_next, approve_transaction_next_is6,
    ?_⟩
  intro s rnd h6 hpend
  show (s.local_code_pending == s.next_local_code) = false
  rw [hpend, beq_eq_false_iff_ne]
  intro hc
  rw [is6digits, ← hc] at h6
  simp at h6

/-- C10 witnessed at a concrete state: the freshly constructed policy has a
    six-digit code, and consuming with nothing entered returns false. -/
theorem c10_next_local_code_invariant_witness :
    is6digits (hsmPolicyInit 7).next_local_code = true
    ∧ (hsmPolicyInit 7).local_code_pending = ""
    ∧ ((hsmPolicyInit 7).consume_local_code 3).1 = false :=
  ⟨by decide, rfl,
    c10_next_local_code_invariant.2.2.2.2.2.2.2.2.2 (hsmPolicyInit 7) 3 (by decide) rfl⟩

/-- C4: with period_minutes P configured and a fresh window, recording a
    spend at t0 starts the window; querying get_time_left at t0 + P*60 + 1
    resets every rule's spent_so_far to zero, marks the window unstarted
    (period_started = 0) and returns the not-started indicator (-1). -/
theorem c4_velocity_window_reset (s : HSMPolicy) (P : Int) (hP : 1 ≤ P)
    (hper : s.period = some P) (hstart : s.period_started = 0)
    (k : Nat) (S1 : Int) (t0 : Nat) :
    ((s.record_spend k S1 t0).get_time_left (t0 + P.toNat * 60 + 1)).1 = some (-1)
    ∧ ((s.record_spend k S1 t0).get_time_left (t0 + P.toNat * 60 + 1)).2.period_started = 0
    ∧ ∀ r ∈ ((s.record_spend k S1 t0).get_time_left (t0 + P.toNat * 60 + 1)).2.rules,
        r.spent_so_far = 0 := by
  have hP0 : (0 : Int) ≤ P := le_trans zero_le_one hP
  have hPt : ((P.toNat : Int)) = P := Int.toNat_of_nonneg hP0
  have hpp : (s.record_spend k S1 t0).period = some P := by
    simp [HSMPolicy.record_spend, hper]
  have hps : (s.record_spend k S1 t0).period_started = (if t0 = 0 then 1 else t0) := by
    simp [HSMPolicy.record_spend, hstart]
  have hne : ¬((s.record_spend k S1 t0).period_started = 0) := by
    rw [hps]; split <;> omega
  have hkey : (s.record_spend k S1 t0).get_time_left (t0 + P.toNat * 60 + 1)
      = (some (-1), (s.record_spend k S1 t0).reset_period) := by
    unfold HSMPolicy.get_time_left
    simp only [hpp, hps]
    rw [if_neg (by split <;> omega : ¬((if t0 = 0 then 1 else t0) = 0))]
    simp only [HSMPolicy.reset_period]
    split <;>
      (rename_i ht0
       split
       · rfl
       · rename_i hlt
         exfalso
         apply hlt
         push_cast
         rw [hPt]
         omega)
  rw [hkey]
  refine ⟨rfl, rfl, ?_⟩
  intro r hr
  simp only [HSMPolicy.reset_period, List.mem_map] at hr
  obtain ⟨r0, _, hr0⟩ := hr
  rw [← hr0]

/-- Concrete policy used to witness C4: two-minute period, one velocity
    rule. -/
def polW4 : HSMPolicy :=
  { (hsmPolicyInit 0) with
      period := some 2,
      rules := [⟨1, some 100, none, [], [], none, false, none, 0⟩] }

/-- C4 witnessed at a concrete policy, spend and clock. -/
theorem c4_velocity_window_reset_witness :
    ((1 : Int) ≤ 2 ∧ polW4.period = some 2 ∧ polW4.period_started = 0)
    ∧ (((polW4.record_spend 0 5 50).get_time_left (50 + (2 : Int).toNat * 60 + 1)).1 = some (-1)
        ∧ ((polW4.record_spend 0 5 50).get_time_left
            (50 + (2 : Int).toNat * 60 + 1)).2.period_started = 0
        ∧ ∀ r ∈ ((polW4.record_spend 0 5 50).get_time_left
            (50 + (2 : Int).toNat * 60 + 1)).2.rules, r.spent_so_far = 0) :=
  ⟨⟨by decide, rfl, rfl⟩, c4_velocity_window_reset polW4 2 (by decide) rfl rfl 0 5 50⟩

/-- Bump the 0-based position of a ruleEval event by one. -/
def bumpEv : HEvent → HEvent
  | .ruleEval p b => .ruleEval (p+1) b
  | e => e

lemma ruleEval_mem_bump (l : List HEvent) (p : Nat) (b : Bool)
    (h : HEvent.ruleEval p b ∈ l.map bumpEv) :
    ∃ p', p = p' + 1 ∧ HEvent.ruleEval p' b ∈ l := by
  rw [List.mem_map] at h
  obtain ⟨e, he, hbe⟩ := h
  cases e <;> simp [bumpEv] at hbe
  rename_i q c
  obtain ⟨h1, h2⟩ := hbe
  exact ⟨q, by omega, by rw [h2] at he; exact he⟩

lemma evaluateRules_shift (pfl : String → String) (rules : List Rule) (start : Nat)
    (ams : Option String) (users : List String) (tot : Int) (dests : List String) (lok : Bool) :
    evaluateRules pfl rules (start+1) ams users tot dests lok =
      ((evaluateRules pfl rules start ams users tot dests lok).1.map (fun p => (p.1+1, p.2)),
       (evaluateRules pfl rules start ams users tot dests lok).2.1,
       (evaluateRules pfl rules start ams users tot dests lok).2.2.map bumpEv) := by
  induction rules generalizing start with
  | nil => rfl
  | cons r rest ih =>
    simp only [evaluateRules]
    cases hm : matches_transaction r ams users tot dests lok with
    | ok u => simp [bumpEv]
    | error e =>
      simp only []
      rw [ih (start+1)]
      simp [bumpEv]

theorem c1_first_matching_rule_wins (pfl : String → String) (rules : List Rule)
    (ams : Option String) (users : List String) (tot : Int) (dests : List String) (lok : Bool) :
    (∀ k r, (evaluateRules pfl rules 0 ams users tot dests lok).1 = some (k, r) →
        rules.get? k = some r
        ∧ matches_transaction r ams users tot dests lok = .ok ()
        ∧ (∀ j rj, j < k → rules.get? j = some rj →
            ∃ e, matches_transaction rj ams users tot dests lok = .error e)
        ∧ (∀ p b, HEvent.ruleEval p b ∈ (evaluateRules pfl rules 0 ams users tot dests lok).2.2 →
            p ≤ k))
    ∧ ((evaluateRules pfl rules 0 ams users tot dests lok).1 = none →
        ∀ j rj, rules.get? j = some rj →
          ∃ e, matches_transaction rj ams users tot dests lok = .error e) := by
  induction rules with
  | nil =>
    constructor
    · intro k r h
      simp [evaluateRules] at h
    · intro _ j rj hj
      simp at hj
  | cons r rest ih =>
    cases hm : matches_transaction r ams users tot dests lok with
    | ok u =>
      cases u
      constructor
      · intro k r' h
        simp only [evaluateRules, hm] at h ⊢
        simp only [Option.some.injEq, Prod.mk.injEq] at h
        obtain ⟨hk, hr⟩ := h
        subst hk
        subst hr
        refine ⟨rfl, hm, ?_, ?_⟩
        · intro j rj hj
          omega
        · intro p b hp
          simp at hp
          omega
      · intro h
        simp only [evaluateRules, hm] at h
        exact Option.noConfusion h
    | error e =>
      have hshift := evaluateRules_shift pfl rest 0 ams users tot dests lok
      constructor
      · intro k r' h
        simp only [evaluateRules, hm, hshift] at h ⊢
        cases hE : (evaluateRules pfl rest 0 ams users tot dests lok).1 with
        | none =>
          rw [hE] at h
          simp at h
        | some p =>
          obtain ⟨k2, r2⟩ := p
          rw [hE] at h
          simp only [Option.map] at h
          injection h with h1
          injection h1 with hk hr
          subst hk
          subst hr
          obtain ⟨hget, hok, hprev, hev⟩ := ih.1 k2 r2 hE
          refine ⟨hget, hok, ?_, ?_⟩
          · intro j rj hj hgj
            cases j with
            | zero =>
              simp only [List.get?_cons_zero, Option.some.injEq] at hgj
              exact ⟨e, hgj ▸ hm⟩
            | succ j2 =>
              exact hprev j2 rj (by omega) hgj
          · intro p b hp
            simp only [List.mem_cons] at hp
            cases hp with
            | inl hh =>
              cases hh
              omega
            | inr hh =>
              obtain ⟨p2, hp2, hmem⟩ := ruleEval_mem_bump _ _ _ hh
              have := hev p2 b hmem
              omega
      · intro h
        simp only [evaluateRules, hm, hshift] at h
        have hnone : (evaluateRules pfl rest 0 ams users tot dests lok).1 = none := by
          cases hE : (evaluateRules pfl rest 0 ams users tot dests lok).1 with
          | none => rfl
          | some p =>
            rw [hE] at h
            simp at h
        intro j rj hgj
        cases j with
        | zero =>
          simp only [List.get?_cons_zero, Option.some.injEq] at hgj
          exact ⟨e, hgj ▸ hm⟩
        | succ j2 =>
          exact ih.2 hnone j2 rj hgj

/-- Rule fixtures for concrete evaluations: a per-txn cap of 5 at position
    0, and an allow-all rule at position 1. -/
def rFailW : Rule := ⟨1, none, some 5, [], [], none, false, none, 0⟩

def rOkW : Rule := ⟨2, none, none, [], [], none, false, none, 0⟩

/-- C1 witnessed concretely: a transaction of 10 skips the capped first rule
    and selects the allow-all second rule. -/
theorem c1_first_matching_rule_wins_witness :
    (evaluateRules (fun _ => "hsm.py") [rFailW, rOkW] 0 none [] 10 [] false).1 = some (1, rOkW)
    ∧ ([rFailW, rOkW].get? 1 = some rOkW
        ∧ matches_transaction rOkW none [] 10 [] false = .ok ()
        ∧ (∃ e, matches_transaction rFailW none [] 10 [] false = .error e)) := by
  have h := (c1_first_matching_rule_wins (fun _ => "hsm.py") [rFailW, rOkW]
    none [] 10 [] false).1 1 rOkW rfl
  exact ⟨rfl, h.1, h.2.1, h.2.2.1 0 rFailW (by omega) rfl⟩

lemma get_time_left_must_log (s : HSMPolicy) (now : Nat) :
    ((s.get_time_left now).2).must_log = s.must_log := by
  unfold HSMPolicy.get_time_left
  repeat' split
  all_goals simp only [HSMPolicy.reset_period]
  all_goals (first | rfl | (split <;> rfl))

lemma sha_guard_false (sha : List Nat) (hlen : sha.length = 32) :
    (sha.isEmpty || !(sha.length = 32 : Bool)) = false := by
  cases sha with
  | nil => simp at hlen
  | cons a l => simp [List.isEmpty, hlen]

/-- C2: when must_log is set and the audit card is unavailable, the decision
    is the refusal 'x' and no rule's matches_transaction is evaluated. -/
theorem c2_must_log_refuses_before_rules (s : HSMPolicy) (env : Env) (rnd : Nat) (psbt : Psbt)
    (sha : List Nat) (story : String) (hlen : sha.length = 32)
    (hml : s.must_log = true) (hcard : env.cardAvailable = false) :
    (s.approve_transaction env rnd psbt sha story).1 = .ok 'x'
    ∧ ∀ p b, HEvent.ruleEval p b ∉ (s.approve_transaction env rnd psbt sha story).2.2 := by
  have hml1 : ((s.get_time_left env.time).2).must_log = true := by
    rw [get_time_left_must_log]; exact hml
  have hguard : ¬(sha.isEmpty || sha.length ≠ 32) := by
    simp [hlen, List.isEmpty_iff]
    intro hn
    rw [hn] at hlen
    simp at hlen
  simp only [HSMPolicy.approve_transaction]
  rw [if_neg hguard]
  rw [hcard, hml1]
  simp only [Bool.not_false, Bool.and_true, if_pos]
  constructor
  · simp
  · intro p b h
    simp at h

/-- A concrete transaction input: no warnings, single-signer, one non-change
    output of 10 sats. -/
def psbtW : Psbt := ⟨[], none, [⟨10, false, "addr1"⟩]⟩

/-- A 32-byte digest fixture. -/
def shaW : List Nat := List.replicate 32 7

/-- C3 counterexample: called with an empty psbt_sha, approve_transaction
    propagates the length assertion instead of refusing. -/
theorem c3_counterexample :
    ((hsmPolicyInit 0).approve_transaction envW 0 psbtW [] "story").1
      = .error "assert: psbt_sha and len(psbt_sha) == 32" := rfl

/-- C3 amended: for a psbt_sha that is a 32-byte digest, every path of
    approve_transaction returns a result ('y' or 'x'); no fault escapes. -/
theorem c3_no_exception_for_valid_sha (s : HSMPolicy) (env : Env) (rnd : Nat) (psbt : Psbt)
    (sha : List Nat) (story : String) (hlen : sha.length = 32) :
    ∃ c, (s.approve_transaction env rnd psbt sha story).1 = .ok c := by
  have hguard : ¬(sha.isEmpty || sha.length ≠ 32) := by
    simp [hlen, List.isEmpty_iff]
    intro hn
    rw [hn] at hlen
    simp at hlen
  simp only [HSMPolicy.approve_transaction, exceptRefuse]
  rw [if_neg hguard]
  repeat' split
  all_goals (first | exact ⟨'x', rfl⟩ | exact ⟨'y', rfl⟩)

/-- C3 amended, witnessed at a concrete valid call. -/
theorem c3_no_exception_for_valid_sha_witness :
    shaW.length = 32
    ∧ ∃ c, ((hsmPolicyInit 0).approve_transaction envW 0 psbtW shaW "story").1 = .ok c :=
  ⟨by decide, c3_no_exception_for_valid_sha (hsmPolicyInit 0) envW 0 psbtW shaW "story"
    (by decide)⟩

/-- Does an event record a consume_local_code call? -/
def isConsumeEv : HEvent → Bool
  | .consumeCode _ => true
  | _ => false

lemma verifyUsers_no_consume (env : Env) (sha : List Nat)
    (auth : List (String × String × Nat)) :
    ((verifyUsers env sha auth).2).countP isConsumeEv = 0 := by
  induction auth with
  | nil => rfl
  | cons a rest ih =>
    obtain ⟨u, token, counter⟩ := a
    simp only [verifyUsers]
    cases env.authOkay u token counter sha with
    | some p => rfl
    | none => simp [List.countP_cons, isConsumeEv, ih]

lemma evaluateRules_no_consume (pfl : String → String) (rules : List Rule) (start : Nat)
    (ams : Option String) (users : List String) (tot : Int) (dests : List String) (lok : Bool) :
    ((evaluateRules pfl rules start ams users tot dests lok).2.2).countP isConsumeEv = 0 := by
  induction rules generalizing start with
  | nil => rfl
  | cons r rest ih =>
    simp only [evaluateRules]
    cases matches_transaction r ams users tot dests lok with
    | ok u => rfl
    | error e => simp [List.countP_cons, isConsumeEv, ih]

/-- C6 amended: in a decision whose psbt_sha is a 32-byte digest, if the
    must_log audit gate does not refuse, consume_local_code runs exactly
    once, immediately after the audit session opens and before the warnings,
    credential and rule checks; if the gate refuses, it does not run at
    all. -/
theorem c6_consume_once_after_audit_gate (s : HSMPolicy) (env : Env) (rnd : Nat) (psbt : Psbt)
    (sha : List Nat) (story : String) (hlen : sha.length = 32) :
    ((s.must_log = false ∨ env.cardAvailable = true) →
      ∃ b t, (s.approve_transaction env rnd psbt sha story).2.2
          = [HEvent.timeCheck, HEvent.auditOpen (!env.cardAvailable), HEvent.consumeCode b] ++ t
        ∧ t.countP isConsumeEv = 0)
    ∧ (s.must_log = true → env.cardAvailable = false →
        ((s.approve_transaction env rnd psbt sha story).2.2).countP isConsumeEv = 0) := by
  have hguard : ¬(sha.isEmpty || sha.length ≠ 32) := by
    simp [hlen, List.isEmpty_iff]
    intro hn
    rw [hn] at hlen
    simp at hlen
  constructor
  · intro hgate
    have hgc : (((s.get_time_left env.time).2).must_log && !env.cardAvailable) = false := by
      rcases hgate with h | h
      · rw [get_time_left_must_log, h]
        simp
      · rw [h]
        simp
    simp only [HSMPolicy.approve_transaction, exceptRefuse]
    rw [if_neg hguard]
    split
    · rename_i hcond
      rw [hgc] at hcond
      simp at hcond
    · repeat' split
      all_goals refine ⟨_, _, rfl, ?_⟩
      all_goals simp [List.countP_append, List.countP_cons, isConsumeEv,
        verifyUsers_no_consume, evaluateRules_no_consume]
  · intro hml hcard
    have hml1 : ((s.get_time_left env.time).2).must_log = true := by
      rw [get_time_left_must_log]; exact hml
    simp only [HSMPolicy.approve_transaction]
    rw [if_neg hguard]
    rw [hcard, hml1]
    simp [isConsumeEv]

/-- Policy and environment fixtures for the audit-gate evaluations:
    must_log set, audit card missing. -/
def polW6 : HSMPolicy := { (hsmPolicyInit 0) with must_log := true }

def envW6 : Env := { envW with cardAvailable := false }

/-- C2 witnessed at a concrete gated call. -/
theorem c2_must_log_refuses_before_rules_witness :
    (shaW.length = 32 ∧ polW6.must_log = true ∧ envW6.cardAvailable = false)
    ∧ ((polW6.approve_transaction envW6 0 psbtW shaW "story").1 = .ok 'x'
        ∧ ∀ p b, HEvent.ruleEval p b ∉ (polW6.approve_transaction envW6 0 psbtW shaW "story").2.2) :=
  ⟨⟨by decide, rfl, rfl⟩,
   c2_must_log_refuses_before_rules polW6 envW6 0 psbtW shaW "story" (by decide) rfl rfl⟩

/-- C6 counterexample: in a gated decision (must_log set, card missing),
    consume_local_code is never called, so it is not called exactly once in
    every decision, nor before the must_log refusal. -/
theorem c6_counterexample :
    ((polW6.approve_transaction envW6 0 psbtW shaW "story").2.2).countP isConsumeEv = 0
    ∧ (polW6.approve_transaction envW6 0 psbtW shaW "story").1 = .ok 'x' := ⟨rfl, rfl⟩

/-- C6 amended, witnessed at a concrete ungated call. -/
theorem c6_consume_once_after_audit_gate_witness :
    (shaW.length = 32 ∧ ((hsmPolicyInit 0).must_log = false ∨ envW.cardAvailable = true))
    ∧ (∃ b t, ((hsmPolicyInit 0).approve_transaction envW 0 psbtW shaW "story").2.2
        = [HEvent.timeCheck, HEvent.auditOpen (!envW.cardAvailable), HEvent.consumeCode b] ++ t
      ∧ t.countP isConsumeEv = 0) :=
  ⟨⟨by decide, Or.inl rfl⟩,
   (c6_consume_once_after_audit_gate (hsmPolicyInit 0) envW 0 psbtW shaW "story"
     (by decide)).1 (Or.inl rfl)⟩

/-! Round-trip machinery for C7. -/

/-- The external path normalizer behaves like one: it is idempotent on its
    outputs and never outputs the reserved sentinels.  (Interface contract
    of utils.cleanup_deriv_path, spec sections 4.1 and 6.) -/
def CuGood (env : Env) : Prop :=
  ∀ a b, env.cleanupDeriv a = some b →
    env.cleanupDeriv b = some b ∧ strLower b ≠ "any" ∧ strLower b ≠ "p2sh"

lemma pop_int_range (j : Doc) (k : String) (mn mx : Int) (ov : Option Int) (j' : Doc)
    (h : pop_int j k mn mx = .ok (ov, j')) :
    ∀ v, ov = some v → mn ≤ v ∧ v ≤ mx := by
  unfold pop_int at h
  repeat' (first | (split at h) | (replace h := h.symm; split at h))
  all_goals intro v hv
  all_goals (try (simp only [] at h))
  all_goals (try (split at h))
  all_goals simp_all

lemma pop_string_len (j : Doc) (k : String) (mn mx : Nat) (os : Option String) (j' : Doc)
    (h : pop_string j k mn mx = .ok (os, j')) :
    ∀ w, os = some w → mn ≤ w.length ∧ w.length ≤ mx := by
  unfold pop_string at h
  repeat' (first | (split at h) | (replace h := h.symm; split at h))
  all_goals intro w hw
  all_goals simp_all

lemma cleanupList_elems (c : JVal → Except String String) (vl : List JVal) (xs : List String)
    (h : cleanupList c vl = .ok xs) : ∀ x ∈ xs, ∃ v, c v = .ok x := by
  induction vl generalizing xs with
  | nil =>
    injection h with h1
    subst h1
    intro x hx
    simp at hx
  | cons v rest ih =>
    unfold cleanupList at h
    cases hc : c v with
    | error e => rw [hc] at h; cases h
    | ok x0 =>
      rw [hc] at h
      cases hr : cleanupList c rest with
      | error e => rw [hr] at h; cases h
      | ok xs0 =>
        rw [hr] at h
        injection h with h1
        subst h1
        intro x hx
        cases hx with
        | head => exact ⟨v, hc⟩
        | tail _ hmem => exact ih xs0 hr x hmem

lemma cleanupList_stable (c : JVal → Except String String) (l : List String)
    (h : ∀ x ∈ l, c (.jstr x) = .ok x) : cleanupList c (l.map .jstr) = .ok l := by
  induction l with
  | nil => rfl
  | cons x rest ih =>
    simp only [List.map_cons]
    unfold cleanupList
    rw [h x (by simp), ih (fun y hy => h y (by simp [hy]))]

lemma pop_list_str_elems (j : Doc) (k : String) (c : JVal → Except String String)
    (xs : List String) (j' : Doc) (h : pop_list_str j k c = .ok (xs, j')) :
    ∀ x ∈ xs, ∃ v, c v = .ok x := by
  unfold pop_list_str at h
  repeat' (first | (split at h) | (replace h := h.symm; split at h))
  · injection h with h1
    injection h1 with h2 h3
    subst h2
    intro x hx
    simp at hx
  · cases h
  · rename_i xs0 heq
    injection h with h1
    injection h1 with h2 h3
    subst h2
    exact cleanupList_elems c _ xs0 heq
  · cases h
  · injection h with h1
    injection h1 with h2 h3
    subst h2
    intro x hx
    simp at hx

lemma checkUser_ok (env : Env) (v : JVal) (x : String) (h : checkUser env v = .ok x) :
    env.validUsername x = true := by
  cases v <;> simp only [checkUser] at h
  all_goals (try (cases h))
  rename_i s
  split at h
  · injection h with h1
    subst h1
    assumption
  · cases h

lemma cleanupWhitelistValue_ok (env : Env) (v : JVal) (x : String)
    (h : cleanupWhitelistValue env v = .ok x) : env.validWhitelistVal x = true := by
  cases v <;> simp only [cleanupWhitelistValue] at h
  all_goals (try (cases h))
  rename_i s
  split at h
  · injection h with h1
    subst h1
    assumption
  · cases h

lemma cuDeriv_stable (env : Env) (hcu : CuGood env) (k k' : String) (extra : Option String)
    (hex : extra = none ∨ extra = some "p2sh") (v : JVal) (x : String)
    (h : cuDeriv env k extra v = .ok x) : cuDeriv env k' extra (.jstr x) = .ok x := by
  rcases hex with rfl | rfl
  · cases v with
    | jstr s =>
      simp only [cuDeriv] at h
      by_cases hany : (strLower s == "any") = true
      · rw [if_pos hany] at h
        injection h with hx
        have hs : strLower s = "any" := by simpa using hany
        rw [hs] at hx
        subst hx
        simp only [cuDeriv]
        rw [if_pos (by decide), show strLower "any" = "any" from by decide]
      · rw [if_neg hany] at h
        cases hc : env.cleanupDeriv s with
        | none => rw [hc] at h; cases h
        | some t =>
          rw [hc] at h
          injection h with hx
          subst hx
          obtain ⟨hct, hta, htp⟩ := hcu s _ hc
          simp only [cuDeriv]
          rw [if_neg (by simpa using hta), hct]
    | jnull => simp only [cuDeriv] at h; cases h
    | jbool b => simp only [cuDeriv] at h; cases h
    | jint n => simp only [cuDeriv] at h; cases h
    | jlist l => simp only [cuDeriv] at h; cases h
    | jdict d => simp only [cuDeriv] at h; cases h
  · cases v with
    | jstr s =>
      simp only [cuDeriv] at h
      by_cases hany : (strLower s == "any") = true
      · rw [if_pos hany] at h
        injection h with hx
        have hs : strLower s = "any" := by simpa using hany
        rw [hs] at hx
        subst hx
        simp only [cuDeriv]
        rw [if_pos (by decide), show strLower "any" = "any" from by decide]
      · rw [if_neg hany] at h
        by_cases hp : (strLower s == "p2sh") = true
        · rw [if_pos hp] at h
          injection h with hx
          have hs : strLower s = "p2sh" := by simpa using hp
          rw [hs] at hx
          subst hx
          simp only [cuDeriv]
          rw [if_neg (by decide), if_pos (by decide),
            show strLower "p2sh" = "p2sh" from by decide]
        · rw [if_neg hp] at h
          cases hc : env.cleanupDeriv s with
          | none => rw [hc] at h; cases h
          | some t =>
            rw [hc] at h
            injection h with hx
            subst hx
            obtain ⟨hct, hta, htp⟩ := hcu s _ hc
            simp only [cuDeriv]
            rw [if_neg (by simpa using hta), if_neg (by simpa using htp), hct]
    | jnull => simp only [cuDeriv] at h; cases h
    | jbool b => simp only [cuDeriv] at h; cases h
    | jint n => simp only [cuDeriv] at h; cases h
    | jlist l => simp only [cuDeriv] at h; cases h
    | jdict d => simp only [cuDeriv] at h; cases h

/-- Facts guaranteed for every rule that ApprovalRule.__init__ accepted. -/
structure RuleWF (env : Env) (r : Rule) : Prop where
  pp_range : ∀ v, r.per_period = some v → 0 ≤ v ∧ v ≤ MAX_SATS
  ma_range : ∀ v, r.max_amount = some v → 0 ≤ v ∧ v ≤ MAX_SATS
  users_ok : ∀ u ∈ r.users, env.validUsername u = true
  wl_ok : ∀ w ∈ r.whitelist, env.validWhitelistVal w = true
  users_nodup : r.users.Nodup
  mu_none : r.users = [] → r.min_users = none
  mu_some : r.users ≠ [] → ∃ m, r.min_users = some m ∧ 1 ≤ m ∧ m ≤ (r.users.length : Int)
  wallet_ok : ∀ w, r.wallet = some w → 1 ≤ w.length ∧ w.length ≤ 20
      ∧ (w = "1" ∨ env.msWalletNames.contains w = true)
  spent_zero : r.spent_so_far = 0

lemma ruleWF_build (env : Env) (idx : Nat)
    (pp ma : Option Int) (users wl : List String) (mu : Option Int) (lc : Bool)
    (wal : Option String)
    (hpp : ∀ v, pp = some v → 0 ≤ v ∧ v ≤ MAX_SATS)
    (hma : ∀ v, ma = some v → 0 ≤ v ∧ v ≤ MAX_SATS)
    (hus : ∀ u ∈ users, env.validUsername u = true)
    (hwl : ∀ w ∈ wl, env.validWhitelistVal w = true)
    (hnd : users.Nodup)
    (hmun : users = [] → mu = none)
    (hmus : users ≠ [] → ∃ m, mu = some m ∧ 1 ≤ m ∧ m ≤ (users.length : Int))
    (hw : ∀ w, wal = some w → 1 ≤ w.length ∧ w.length ≤ 20
        ∧ (w = "1" ∨ env.msWalletNames.contains w = true)) :
    RuleWF env ⟨idx+1, pp, ma, users, wl, mu, lc, wal, 0⟩
    ∧ (⟨idx+1, pp, ma, users, wl, mu, lc, wal, 0⟩ : Rule).index = idx + 1 :=
  ⟨⟨hpp, hma, hus, hwl, hnd, hmun, hmus, hw, rfl⟩, rfl⟩

lemma len_pos_not_isEmpty (w : String) (h : 1 ≤ w.length) : w.isEmpty = false := by
  cases he : w.isEmpty
  · rfl
  · exfalso
    have hw : w = "" := (String.isEmpty_iff w).mp (by rw [he])
    subst hw
    simp at h

lemma ruleInit_wf (env : Env) (d : Doc) (idx : Nat) (r : Rule)
    (h : approvalRuleInit env d idx = .ok r) :
    RuleWF env r ∧ r.index = idx + 1 := by
  unfold approvalRuleInit at h
  split at h
  case h_1 => simp at h
  rename_i per_period j1 hpp
  split at h
  case h_1 => simp at h
  rename_i max_amount j2 hma
  split at h
  case h_1 => simp at h
  rename_i users j3 hus
  split at h
  case h_1 => simp at h
  rename_i whitelist j4 hwl
  split at h
  case h_1 => simp at h
  rename_i min_users0 j5 hmu0
  split at h
  rename_i local_conf j6 hlc
  split at h
  case h_1 => simp at h
  rename_i wallet j7 hwal
  split at h
  case isFalse => simp at h
  rename_i hdup
  have Hus : ∀ u ∈ users, env.validUsername u = true := by
    intro u hu
    obtain ⟨v, hv⟩ := pop_list_str_elems _ _ _ _ _ hus u hu
    exact checkUser_ok env v u hv
  have Hwl : ∀ w ∈ whitelist, env.validWhitelistVal w = true := by
    intro w hw
    obtain ⟨v, hv⟩ := pop_list_str_elems _ _ _ _ _ hwl w hw
    exact cleanupWhitelistValue_ok env v w hv
  have Hwlen := pop_string_len _ _ _ _ _ _ hwal
  split at h
  · -- min_users absent: defaulted to len(users) when users non-empty
    simp only [] at h
    split at h
    · -- wallet = some w
      rename_i w
      split at h
      · -- w nonempty and not "1": must be a known multisig wallet
        rename_i hbw
        split at h
        case isFalse => simp at h
        rename_i hcont
        split at h
        case h_1 => simp at h
        injection h with h1
        subst h1
        refine ruleWF_build env idx _ _ _ _ _ _ _
          (pop_int_range _ _ _ _ _ _ hpp) (pop_int_range _ _ _ _ _ _ hma) Hus Hwl hdup
          ?_ ?_ ?_
        · intro he
          simp [he]
        · intro hne
          refine ⟨users.length, ?_, ?_, le_refl _⟩
          · rw [if_neg (by simpa [List.isEmpty_iff] using hne)]
          · have := List.length_pos.mpr hne
            omega
        · intro w2 hw2
          injection hw2 with he
          subst he
          exact ⟨(Hwlen w rfl).1, (Hwlen w rfl).2, Or.inr hcont⟩
      · -- wallet is "1" (single-signer sentinel)
        rename_i hbw
        split at h
        case h_1 => simp at h
        injection h with h1
        subst h1
        refine ruleWF_build env idx _ _ _ _ _ _ _
          (pop_int_range _ _ _ _ _ _ hpp) (pop_int_range _ _ _ _ _ _ hma) Hus Hwl hdup
          ?_ ?_ ?_
        · intro he
          simp [he]
        · intro hne
          refine ⟨users.length, ?_, ?_, le_refl _⟩
          · rw [if_neg (by simpa [List.isEmpty_iff] using hne)]
          · have := List.length_pos.mpr hne
            omega
        · intro w2 hw2
          injection hw2 with he
          subst he
          have hie : w.isEmpty = false := len_pos_not_isEmpty w (Hwlen w rfl).1
          rw [hie] at hbw
          simp at hbw
          exact ⟨(Hwlen w rfl).1, (Hwlen w rfl).2, Or.inl hbw⟩
    · -- wallet = none
      split at h
      case h_1 => simp at h
      injection h with h1
      subst h1
      refine ruleWF_build env idx _ _ _ _ _ _ _
        (pop_int_range _ _ _ _ _ _ hpp) (pop_int_range _ _ _ _ _ _ hma) Hus Hwl hdup
        ?_ ?_ ?_
      · intro he
        simp [he]
      · intro hne
        refine ⟨users.length, ?_, ?_, le_refl _⟩
        · rw [if_neg (by simpa [List.isEmpty_iff] using hne)]
        · have := List.length_pos.mpr hne
          omega
      · intro w2 hw2
        exact absurd hw2 (by simp)
  · -- min_users given explicitly
    rename_i m
    split at h
    case isFalse => simp at h
    rename_i hrange
    split at h
    · rename_i w
      split at h
      · rename_i hbw
        split at h
        case isFalse => simp at h
        rename_i hcont
        split at h
        case h_1 => simp at h
        injection h with h1
        subst h1
        refine ruleWF_build env idx _ _ _ _ _ _ _
          (pop_int_range _ _ _ _ _ _ hpp) (pop_int_range _ _ _ _ _ _ hma) Hus Hwl hdup
          ?_ ?_ ?_
        · intro he
          exfalso
          have h2 := hrange.2
          rw [he] at h2
          simp at h2
          have h1 := hrange.1
          omega
        · intro hne
          exact ⟨m, rfl, hrange.1, hrange.2⟩
        · intro w2 hw2
          injection hw2 with he
          subst he
          exact ⟨(Hwlen w rfl).1, (Hwlen w rfl).2, Or.inr hcont⟩
      · rename_i hbw
        split at h
        case h_1 => simp at h
        injection h with h1
        subst h1
        refine ruleWF_build env idx _ _ _ _ _ _ _
          (pop_int_range _ _ _ _ _ _ hpp) (pop_int_range _ _ _ _ _ _ hma) Hus Hwl hdup
          ?_ ?_ ?_
        · intro he
          exfalso
          have h2 := hrange.2
          rw [he] at h2
          simp at h2
          have h1 := hrange.1
          omega
        · intro hne
          exact ⟨m, rfl, hrange.1, hrange.2⟩
        · intro w2 hw2
          injection hw2 with he
          subst he
          have hie : w.isEmpty = false := len_pos_not_isEmpty w (Hwlen w rfl).1
          rw [hie] at hbw
          simp at hbw
          exact ⟨(Hwlen w rfl).1, (Hwlen w rfl).2, Or.inl hbw⟩
    · split at h
      case h_1 => simp at h
      injection h with h1
      subst h1
      refine ruleWF_build env idx _ _ _ _ _ _ _
        (pop_int_range _ _ _ _ _ _ hpp) (pop_int_range _ _ _ _ _ _ hma) Hus Hwl hdup
        ?_ ?_ ?_
      · intro he
        exfalso
        have h2 := hrange.2
        rw [he] at h2
        simp at h2
        have h1 := hrange.1
        omega
      · intro hne
        exact ⟨m, rfl, hrange.1, hrange.2⟩
      · intro w2 hw2
        exact absurd hw2 (by simp)

set_option maxHeartbeats 2000000 in
lemma ruleInit_toJson (env : Env) (idx : Nat) (pp ma : Option Int) (us wl : List String)
    (mu : Option Int) (lc : Bool) (wal : Option String)
    (hwf : RuleWF env ⟨idx+1, pp, ma, us, wl, mu, lc, wal, 0⟩) :
    approvalRuleInit env [("per_period", optIntJ pp), ("max_amount", optIntJ ma),
      ("users", .jlist (us.map .jstr)), ("min_users", optIntJ mu),
      ("local_conf", .jbool lc), ("whitelist", .jlist (wl.map .jstr)),
      ("wallet", optStrJ wal)] idx
      = .ok ⟨idx+1, pp, ma, us, wl, mu, lc, wal, 0⟩ := by
  obtain ⟨hpp, hma, hus, hwl, hnd, hmun, hmus, hw, _⟩ := hwf
  simp only [] at hpp hma hus hwl hnd hmun hmus hw
  have Hclu : cleanupList (checkUser env) (us.map .jstr) = .ok us :=
    cleanupList_stable _ _ (fun x hx => by simp [checkUser, hus x hx])
  have Hclw : cleanupList (cleanupWhitelistValue env) (wl.map .jstr) = .ok wl :=
    cleanupList_stable _ _ (fun x hx => by simp [cleanupWhitelistValue, hwl x hx])
  rcases us with _ | ⟨u0, us2⟩
  · have hmu0 : mu = none := hmun rfl
    subst hmu0
    rcases pp with _ | v1 <;> rcases ma with _ | v2 <;> rcases wl with _ | ⟨w0, wl2⟩
    all_goals (try (have Hp := hpp _ rfl))
    all_goals (try (have Hm := hma _ rfl))
    all_goals rcases wal with _ | w
    all_goals (try (have Hwlen := hw _ rfl))
    all_goals (try (by_cases hw1 : w = "1"))
    all_goals (try (subst hw1))
    all_goals (try (have hie : w.isEmpty = false := len_pos_not_isEmpty w Hwlen.1))
    all_goals (try (have hbne : (w != "1") = true := by simp [hw1]))
    all_goals (try (have hcont : w ∈ env.msWalletNames := by simpa using Hwlen.2.2.resolve_left hw1))
    all_goals (try (simp only [List.map_cons] at Hclu Hclw))
    all_goals simp [approvalRuleInit, pop_int, pop_bool, pop_string, pop_list_str,
      jpop, optIntJ, optStrJ, jTruthy, assert_empty_dict, *]
  · obtain ⟨m, hm, hm1, hm2⟩ := hmus (by simp)
    subst hm
    rcases pp with _ | v1 <;> rcases ma with _ | v2 <;> rcases wl with _ | ⟨w0, wl2⟩
    all_goals (try (have Hp := hpp _ rfl))
    all_goals (try (have Hm := hma _ rfl))
    all_goals rcases wal with _ | w
    all_goals (try (have Hwlen := hw _ rfl))
    all_goals (try (by_cases hw1 : w = "1"))
    all_goals (try (subst hw1))
    all_goals (try (have hie : w.isEmpty = false := len_pos_not_isEmpty w Hwlen.1))
    all_goals (try (have hbne : (w != "1") = true := by simp [hw1]))
    all_goals (try (have hcont : w ∈ env.msWalletNames := by simpa using Hwlen.2.2.resolve_left hw1))
    all_goals (try (simp only [List.map_cons] at Hclu Hclw))
    all_goals (try (have hm2x : m ≤ (us2.length : Int) + 1 := by simpa using hm2))
    all_goals simp [approvalRuleInit, pop_int, pop_bool, pop_string, pop_list_str,
      jpop, optIntJ, optStrJ, jTruthy, assert_empty_dict, *]

lemma parseRules_wf (env : Env) (lst : List JVal) (idx : Nat) (rs : List Rule)
    (h : parseRules env lst idx = .ok rs) :
    ∀ k (hk : k < rs.length), RuleWF env (rs.get ⟨k, hk⟩)
      ∧ (rs.get ⟨k, hk⟩).index = idx + k + 1 := by
  induction lst generalizing idx rs with
  | nil =>
    injection h with h1
    subst h1
    intro k hk
    simp at hk
  | cons v rest ih =>
    unfold parseRules at h
    split at h
    case h_2 => simp at h
    rename_i d
    split at h
    case h_1 => simp at h
    rename_i r hr0
    split at h
    case h_1 => simp at h
    rename_i rs0 hrs
    injection h with h1
    subst h1
    intro k hk
    cases k with
    | zero =>
      have := ruleInit_wf env d idx r hr0
      exact ⟨this.1, by have := this.2; simpa using this⟩
    | succ k2 =>
      have hk2 : k2 < rs0.length := by simpa using hk
      have h2 := ih (idx+1) rs0 hrs k2 hk2
      refine ⟨by simpa using h2.1, ?_⟩
      have := h2.2
      simp only [List.get_cons_succ]
      omega

lemma parseRules_toJson (env : Env) (rs : List Rule) (idx : Nat)
    (hwf : ∀ k (hk : k < rs.length), RuleWF env (rs.get ⟨k, hk⟩)
      ∧ (rs.get ⟨k, hk⟩).index = idx + k + 1) :
    parseRules env (rs.map Rule.to_json) idx = .ok rs := by
  induction rs generalizing idx with
  | nil => rfl
  | cons r rest ih =>
    obtain ⟨r_wf, r_idx⟩ := hwf 0 (by simp)
    obtain ⟨ri, pp, ma, us, wl, mu, lc, wal, sp⟩ := r
    have hsp : sp = 0 := r_wf.spent_zero
    subst hsp
    have hri : ri = idx + 1 := by simpa using r_idx
    subst hri
    have hrest : ∀ k (hk : k < rest.length), RuleWF env (rest.get ⟨k, hk⟩)
        ∧ (rest.get ⟨k, hk⟩).index = (idx + 1) + k + 1 := by
      intro k hk
      have h2 := hwf (k+1) (by simpa using Nat.succ_lt_succ hk)
      simp only [List.get_cons_succ] at h2
      exact ⟨h2.1, by have := h2.2; omega⟩
    simp only [List.map_cons, parseRules, Rule.to_json]
    rw [ruleInit_toJson env idx pp ma us wl mu lc wal r_wf]
    rw [ih (idx+1) hrest]

/-- Facts guaranteed for every policy that HSMPolicy.load accepted (given a
    well-behaved external path normalizer). -/
structure PolicyWF (env : Env) (s : HSMPolicy) : Prop where
  msg_st : ∀ x ∈ s.msg_paths, ∀ k2, cuDeriv env k2 none (.jstr x) = .ok x
  xpub_st : ∀ x ∈ s.share_xpubs, ∀ k2, cuDeriv env k2 none (.jstr x) = .ok x
  addr_st : ∀ x ∈ s.share_addrs, ∀ k2, cuDeriv env k2 (some "p2sh") (.jstr x) = .ok x
  per : ∀ p, s.period = some p → 1 ≤ p ∧ p ≤ 4320
  asl : ∀ a, s.allow_sl = some a → 1 ≤ a ∧ a ≤ 10
  vel : optIntTruthy s.period = false → s.rules.any Rule.has_velocity = false
  rules_wf : ∀ k (hk : k < s.rules.length), RuleWF env (s.rules.get ⟨k, hk⟩)
      ∧ (s.rules.get ⟨k, hk⟩).index = k + 1

lemma load_wf (env : Env) (hcu : CuGood env) (s0 : HSMPolicy) (j : Doc) (s : HSMPolicy)
    (h : HSMPolicy.load env s0 j = .ok s) : PolicyWF env s := by
  unfold HSMPolicy.load at h
  split at h
  rename_i must_log j1 hml
  split at h
  rename_i warnings_ok j2 hwo
  split at h
  case h_1 => simp at h
  rename_i msg_paths j3 hmp
  split at h
  case h_1 => simp at h
  rename_i share_xpubs j4 hsx
  split at h
  case h_1 => simp at h
  rename_i share_addrs j5 hsa
  split at h
  rename_i notesV j6 hnt
  split at h
  case h_1 => simp at h
  rename_i period j7 hper
  split at h
  case h_1 => simp at h
  rename_i allow_sl j8 hasl
  split at h
  case h_1 => simp at h
  rename_i set_sl j9 hsl
  split at h
  case isTrue => simp at h
  rename_i hslck
  split at h
  case h_1 => simp at h
  rename_i rlist j10 hrl
  split at h
  case h_1 => simp at h
  rename_i rules hpr
  split at h
  case isTrue => simp at h
  rename_i hvel
  split at h
  case h_1 => simp at h
  injection h with h1
  subst h1
  refine ⟨?_, ?_, ?_, ?_, ?_, ?_, ?_⟩
  · intro x hx k2
    unfold pop_deriv_list at hmp
    obtain ⟨v, hv⟩ := pop_list_str_elems _ _ _ _ _ hmp x hx
    exact cuDeriv_stable env hcu _ k2 none (Or.inl rfl) v x hv
  · intro x hx k2
    unfold pop_deriv_list at hsx
    obtain ⟨v, hv⟩ := pop_list_str_elems _ _ _ _ _ hsx x hx
    exact cuDeriv_stable env hcu _ k2 none (Or.inl rfl) v x hv
  · intro x hx k2
    unfold pop_deriv_list at hsa
    obtain ⟨v, hv⟩ := pop_list_str_elems _ _ _ _ _ hsa x hx
    exact cuDeriv_stable env hcu _ k2 (some "p2sh") (Or.inr rfl) v x hv
  · exact fun p hp => pop_int_range _ _ _ _ _ _ hper p hp
  · exact fun a ha => pop_int_range _ _ _ _ _ _ hasl a ha
  · intro hpt
    have hpt2 : optIntTruthy period = false := hpt
    rw [hpt2] at hvel
    show rules.any Rule.has_velocity = false
    simpa using hvel
  · intro k hk
    have h2 := parseRules_wf env rlist 0 rules hpr k hk
    refine ⟨h2.1, ?_⟩
    show (rules.get ⟨k, hk⟩).index = k + 1
    have := h2.2
    omega

set_option maxHeartbeats 4000000 in
lemma load_save (env : Env) (s : HSMPolicy) (hwf : PolicyWF env s) (s1 : HSMPolicy) :
    HSMPolicy.load env s1 s.save
      = .ok { s1 with
          must_log := s.must_log, warnings_ok := s.warnings_ok,
          msg_paths := s.msg_paths, share_xpubs := s.share_xpubs,
          share_addrs := s.share_addrs, notes := s.notes,
          period := s.period, allow_sl := s.allow_sl, set_sl := none,
          rules := s.rules } := by
  obtain ⟨msg_st, xpub_st, addr_st, per, asl, vel, rules_wf⟩ := hwf
  have Hclmp : cleanupList (cuDeriv env "msg_paths" none) (s.msg_paths.map .jstr)
      = .ok s.msg_paths :=
    cleanupList_stable _ _ (fun x hx => msg_st x hx "msg_paths")
  have Hclxp : cleanupList (cuDeriv env "share_xpubs" none) (s.share_xpubs.map .jstr)
      = .ok s.share_xpubs :=
    cleanupList_stable _ _ (fun x hx => xpub_st x hx "share_xpubs")
  have Hclad : cleanupList (cuDeriv env "share_addrs" (some "p2sh")) (s.share_addrs.map .jstr)
      = .ok s.share_addrs :=
    cleanupList_stable _ _ (fun x hx => addr_st x hx "share_addrs")
  have Hpr : parseRules env (s.rules.map Rule.to_json) 0 = .ok s.rules :=
    parseRules_toJson env s.rules 0
      (fun k hk => ⟨(rules_wf k hk).1, by have := (rules_wf k hk).2; omega⟩)
  have Hvelf : (!optIntTruthy s.period && s.rules.any Rule.has_velocity) = false := by
    cases hop : optIntTruthy s.period
    · rw [vel hop]
      simp
    · simp
  obtain ⟨rr, ra, rs, rp, rps, rlc, rnc, rlr, rml, rwo, rmp, rsx, rsa, rnt, rper, rasl, rsl, rrl⟩ := s
  simp only [] at Hclmp Hclxp Hclad Hpr Hvelf per asl
  rcases rper with _ | p <;> rcases rasl with _ | a
  all_goals (try (have HP := per _ rfl))
  all_goals (try (have HA := asl _ rfl))
  all_goals (try (have hpne : (p != 0) = true := by have := HP.1; simpa using (by omega : ¬(p = 0))))
  all_goals (try (have hane : (a != 0) = true := by have := HA.1; simpa using (by omega : ¬(a = 0))))
  all_goals rcases rmp with _ | ⟨m0, mp2⟩ <;> rcases rsx with _ | ⟨x0, sx2⟩ <;>
    rcases rsa with _ | ⟨a0, sa2⟩ <;> rcases rrl with _ | ⟨r0, rl2⟩
  all_goals (simp only [List.map_cons, List.map_nil] at Hclmp Hclxp Hclad Hpr Hvelf)
  all_goals (try (simp [optIntTruthy] at Hvelf))
  all_goals simp [HSMPolicy.load, HSMPolicy.save, pop_bool, pop_int, pop_string,
    pop_list_str, pop_list_raw, pop_deriv_list, jpop, jTruthy, optIntTruthy, optStrTruthy,
    optIntJ, optStrJ, assert_empty_dict, *]

/-- C7: loading a policy document and saving it back yields a document that
    reloads to an equivalent policy (same top-level fields and rule set),
    with the one-time secret set_sl absent from the saved document and from
    the reloaded policy. -/
theorem c7_save_load_roundtrip (env : Env) (s0 : HSMPolicy) (j : Doc) (s : HSMPolicy)
    (s1 : HSMPolicy) (hcu : CuGood env) (hload : HSMPolicy.load env s0 j = .ok s) :
    (∃ s2, HSMPolicy.load env s1 s.save = .ok s2
      ∧ s2.must_log = s.must_log ∧ s2.warnings_ok = s.warnings_ok
      ∧ s2.msg_paths = s.msg_paths ∧ s2.share_xpubs = s.share_xpubs
      ∧ s2.share_addrs = s.share_addrs ∧ s2.notes = s.notes
      ∧ s2.period = s.period ∧ s2.allow_sl = s.allow_sl
      ∧ s2.rules = s.rules ∧ s2.set_sl = none)
    ∧ s.save.find? (fun kv => kv.1 == "set_sl") = none := by
  have hwf := load_wf env hcu s0 j s hload
  refine ⟨⟨_, load_save env s hwf s1, rfl, rfl, rfl, rfl, rfl, rfl, rfl, rfl, rfl, rfl⟩, ?_⟩
  simp [HSMPolicy.save]

/-- Environment and document fixtures for the round-trip evaluation. -/
def envW7 : Env :=
  { envW with validUsername := fun u => u == "alice",
              validWhitelistVal := fun _ => true,
              msWalletNames := ["w1"] }

def docW7 : Doc :=
  [("must_log", .jbool true), ("period", .jint 5),
   ("rules", .jlist [.jdict [("max_amount", .jint 50000),
                             ("users", .jlist [.jstr "alice"])]])]

def polW7 : HSMPolicy :=
  { (hsmPolicyInit 0) with
      must_log := true, period := some 5,
      rules := [⟨1, none, some 50000, ["alice"], [], some 1, false, none, 0⟩] }

/-- C7 witnessed at a concrete loadable document. -/
theorem c7_save_load_roundtrip_witness :
    HSMPolicy.load envW7 (hsmPolicyInit 0) docW7 = .ok polW7
    ∧ ((∃ s2, HSMPolicy.load envW7 (hsmPolicyInit 3) polW7.save = .ok s2
        ∧ s2.must_log = polW7.must_log ∧ s2.warnings_ok = polW7.warnings_ok
        ∧ s2.msg_paths = polW7.msg_paths ∧ s2.share_xpubs = polW7.share_xpubs
        ∧ s2.share_addrs = polW7.share_addrs ∧ s2.notes = polW7.notes
        ∧ s2.period = polW7.period ∧ s2.allow_sl = polW7.allow_sl
        ∧ s2.rules = polW7.rules ∧ s2.set_sl = none)
      ∧ polW7.save.find? (fun kv => kv.1 == "set_sl") = none) :=
  ⟨rfl, c7_save_load_roundtrip envW7 (hsmPolicyInit 0) docW7 polW7 (hsmPolicyInit 3)
    (fun a b hab => by cases hab) rfl⟩
